import Mathlib

/-!
Shallow embedding of the analytical core of the SCRAM fault-tree analysis
engine, covering the fragments of the code base that the verified claims
speak about: the `Node` visit-time machinery and `IGate` state machine of
`indexed_fault_tree.h`, the index discipline of `IndexedFaultTree`, the
boolean-attribute conversion of `config.cc`, and the cut-off filtering,
UNITY early return and statistics steps of `uncertainty_analysis.cc`.

Machine `double`s are embedded as `ℚ` where only ring operations and
comparisons occur, and as `ℝ` where square roots are taken; `std::set`
containers are embedded as `Finset` or as lists where iteration order is
irrelevant to the properties proved.
-/

namespace Scram

/-! ### Node visit times (`indexed_fault_tree.h`, class `Node`) -/

/-- The three-slot traversal array `int visits_[3]` of `Node`: first-enter,
exit, and last-visit timestamps. -/
structure NodeVisits where
  v0 : Int
  v1 : Int
  v2 : Int
deriving DecidableEq

/-- A freshly constructed node: all visit slots are zero. -/
def initVisits : NodeVisits := ⟨0, 0, 0⟩

/-- `Node::Visit(int time)`: fills the first zero slot among `visits_[0]`,
`visits_[1]`, otherwise overwrites `visits_[2]` and reports `true`.
A C truth test `!visits_[i]` is the test `visits_[i] = 0`. -/
def NodeVisits.Visit (n : NodeVisits) (time : Int) : NodeVisits × Bool :=
  if n.v0 = 0 then ({ n with v0 := time }, false)
  else if n.v1 = 0 then ({ n with v1 := time }, false)
  else ({ n with v2 := time }, true)

/-- Runs a sequence of `Visit` calls from a given node state, collecting the
returned booleans in call order. -/
def visitList (n : NodeVisits) : List Int → NodeVisits × List Bool
  | [] => (n, [])
  | t :: ts =>
    let r := n.Visit t
    let w := visitList r.1 ts
    (w.1, r.2 :: w.2)

/-- Runs a sequence of `Visit` calls on a node whose slots start at zero. -/
def runVisits (ts : List Int) : NodeVisits × List Bool :=
  visitList initVisits ts

/-- `Node::EnterTime()`. -/
def NodeVisits.EnterTime (n : NodeVisits) : Int := n.v0

/-- `Node::ExitTime()`. -/
def NodeVisits.ExitTime (n : NodeVisits) : Int := n.v1

/-- `Node::LastVisit()`: `visits_[2] ? visits_[2] : visits_[1]`. -/
def NodeVisits.LastVisit (n : NodeVisits) : Int :=
  if n.v2 ≠ 0 then n.v2 else n.v1

/-- `Node::Revisited()`: `visits_[2] ? true : false`. -/
def NodeVisits.Revisited (n : NodeVisits) : Bool := n.v2 ≠ 0

/-! ### IGate state machine (`indexed_fault_tree.h`, class `IGate`) -/

/-- `enum State`: the set-state of a gate. -/
inductive State where
  | kNormalState
  | kNullState
  | kUnityState
deriving DecidableEq

/-- The fragment of `IGate` relevant to the terminal-state transitions:
its state and its children set `std::set<int> children_`. -/
structure IGate where
  state : State
  children : Finset Int
deriving DecidableEq

/-- `IGate::Nullify()`: asserts `state_ == kNormalState` (`none` models the
assertion firing), then sets the null state and clears the children. -/
def IGate.Nullify (g : IGate) : Option IGate :=
  if g.state = State.kNormalState then
    some { state := State.kNullState, children := ∅ }
  else none

/-- `IGate::MakeUnity()`: asserts `state_ == kNormalState` (`none` models the
assertion firing), then sets the unity state and clears the children. -/
def IGate.MakeUnity (g : IGate) : Option IGate :=
  if g.state = State.kNormalState then
    some { state := State.kUnityState, children := ∅ }
  else none

/-! ### IndexedFaultTree index discipline (`indexed_fault_tree.h`) -/

/-- The fragment of `IndexedFaultTree` relevant to index assignment: the
constant gate-index offset `kGateIndex_` and the counter `new_gate_index_`. -/
structure IndexedFaultTree where
  kGateIndex : Int
  new_gate_index : Int
deriving DecidableEq

/-- `IndexedFaultTree::IsGateIndex(int index)`: after asserting
`index > 0`, returns `index >= kGateIndex_`. -/
def IndexedFaultTree.IsGateIndex (t : IndexedFaultTree) (index : Int) : Bool :=
  t.kGateIndex ≤ index

/-- `IndexedFaultTree::CreateGate`: pre-increments `new_gate_index_` and uses
it as the fresh gate's index; returns the new index with the updated tree. -/
def IndexedFaultTree.CreateGate (t : IndexedFaultTree) : Int × IndexedFaultTree :=
  (t.new_gate_index + 1, { t with new_gate_index := t.new_gate_index + 1 })

/-- Index handed out by the `n`-th `CreateGate` call (counted from 0) in a
sequence of calls starting from tree state `t`. -/
def nthCreatedIndex (t : IndexedFaultTree) : Nat → Int
  | 0 => (t.CreateGate).1
  | n + 1 => nthCreatedIndex (t.CreateGate).2 n

/-! ### Boolean attribute conversion (`config.cc`) -/

/-- `Config::GetBoolFromString`: asserts the flag is one of
`"1"`, `"true"`, `"0"`, `"false"` (`none` models the assertion firing), then
returns `true` for `"1"` or `"true"` and `false` otherwise. -/
def GetBoolFromString (flag : String) : Option Bool :=
  if flag = "1" ∨ flag = "true" ∨ flag = "0" ∨ flag = "false" then
    some (flag = "1" || flag = "true")
  else none

/-! ### Cut-set probability and cut-off filtering
(`uncertainty_analysis.cc`, `UncertaintyAnalysis::Analyze`) -/

/-- Modelled from the spec: `ProbabilityAnalysis::ProbAnd` is declared and
called by the code under `src/` but its body is not among the given source
files.  Per the spec it is the product probability
`ProbAnd(S) = ∏ᵢ (p i if i positive else 1 − p (−i))` over the signed
literals of the flat set `S`. -/
def ProbAnd (p : Int → ℚ) (s : List Int) : ℚ :=
  s.foldl (fun acc i => acc * (if 0 < i then p i else 1 - p (-i))) 1

/-- The cut-off filtering loop of `UncertaintyAnalysis::Analyze`: a minimal
cut set enters the series-expansion set `iset` exactly when
`ProbAnd(*it_min) > kSettings_.cut_off()`. -/
def cutOffFilter (p : Int → ℚ) (cut_off : ℚ) (imcs : List (List Int)) :
    List (List Int) :=
  imcs.filter (fun s => decide (cut_off < ProbAnd p s))

/-- The effective truncation depth of `UncertaintyAnalysis::Analyze`:
`num_sums` from the settings, overridden to 1 when the approximation is
`"rare-event"`. -/
def effectiveNumSums (approx : String) (num_sums : Int) : Int :=
  if approx = "rare-event" then 1 else num_sums

/-! ### UNITY early return (`UncertaintyAnalysis::Analyze`) -/

/-- The result fields of `UncertaintyAnalysis` the UNITY branch writes. -/
structure UncertaintyResult where
  mean : ℚ
  sigma : ℚ
  confidence_interval : ℚ × ℚ
  distribution : List (ℚ × ℚ)
  quantiles : List ℚ
deriving DecidableEq

/-- `UncertaintyAnalysis::Analyze(min_cut_sets)`: when the family holds
exactly one cut set and that set is empty, it returns at once with
mean 1, sigma 0, confidence interval `(1, 1)`, the single-point
distribution and the single quantile 1, and never reaches the sampling
stage; otherwise it proceeds with the main path, abstracted here by the
`rest` argument, which does run `Sample()` (flag `true`). -/
def Analyze (min_cut_sets : Finset (Finset String))
    (rest : UncertaintyResult) : UncertaintyResult × Bool :=
  if min_cut_sets.card = 1 ∧ ∅ ∈ min_cut_sets then
    ({ mean := 1, sigma := 0, confidence_interval := (1, 1),
       distribution := [(1, 1)], quantiles := [1] }, false)
  else (rest, true)

/-! ### Statistics (`UncertaintyAnalysis::CalculateStatistics`) -/

/-- The Boost mean accumulator: sum of the samples over their count. -/
noncomputable def accMean (xs : List ℝ) : ℝ := xs.sum / xs.length

/-- The Boost lazy variance accumulator: second raw moment minus the
squared mean. -/
noncomputable def accVariance (xs : List ℝ) : ℝ :=
  (xs.map fun x => x ^ 2).sum / xs.length - accMean xs ^ 2

/-- The confidence interval computed by `CalculateStatistics`:
`sigma_ = sqrt(variance(acc))` and
`mean_ ∓ sigma_ * 1.96 / sqrt(num_trials)`. -/
noncomputable def confidenceInterval (xs : List ℝ) (num_trials : Nat) : ℝ × ℝ :=
  (accMean xs - Real.sqrt (accVariance xs) * 1.96 / Real.sqrt num_trials,
   accMean xs + Real.sqrt (accVariance xs) * 1.96 / Real.sqrt num_trials)

/-- The sample variance as the spec words it: the mean squared deviation of
the samples from their sample mean. -/
noncomputable def sampleVariance (xs : List ℝ) : ℝ :=
  (xs.map fun x => (x - accMean xs) ^ 2).sum / xs.length

/-- The confidence interval exactly as the claim words it:
`mean ± 1.96 × sigma / sqrt(num_trials)` with `sigma` the square root of
the sample variance. -/
noncomputable def claimedCI (xs : List ℝ) (num_trials : Nat) : ℝ × ℝ :=
  (accMean xs - 1.96 * Real.sqrt (sampleVariance xs) / Real.sqrt num_trials,
   accMean xs + 1.96 * Real.sqrt (sampleVariance xs) / Real.sqrt num_trials)

/-! ### Density distribution (`UncertaintyAnalysis::CalculateStatistics`) -/

/-- Number of `(bin, density)` pairs the Boost density accumulator returns
for a given `num_bins` setting.  Modelled from the Boost.Accumulators
documentation (external library, not part of this repository): the
histogram has `num_bins + 2` bins, one extra bin below the minimum and one
above the maximum of the cached samples. -/
def densityHistLength (num_bins : Nat) : Nat := num_bins + 2

/-- The copy loop of `CalculateStatistics`:
`for (int i = 1; i < hist.size(); i++) distribution_.push_back(hist[i]);`
starting from an empty `distribution_`, i.e. every histogram entry except
the one at position 0. -/
def buildDistribution (hist : List (ℚ × ℚ)) : List (ℚ × ℚ) :=
  hist.drop 1

/-! ## Helper lemmas -/

/-- Once the first two visit slots are filled with nonzero times, every
further `Visit` call returns `true` and only rewrites the third slot, which
ends up holding the last time of the sequence. -/
theorem visitList_saturated (ts : List Int) (n : NodeVisits)
    (h0 : n.v0 ≠ 0) (h1 : n.v1 ≠ 0) :
    visitList n ts = (⟨n.v0, n.v1, ts.getLastD n.v2⟩, ts.map fun _ => true) := by
  induction ts generalizing n with
  | nil => simp [visitList]
  | cons t ts ih =>
    simp only [visitList, NodeVisits.Visit, if_neg h0, if_neg h1]
    rw [ih { n with v2 := t } h0 h1, List.getLastD_cons]
    simp

/-- The index of the `n`-th gate created by `CreateGate` from state `t`. -/
theorem nthCreatedIndex_eq (t : IndexedFaultTree) (n : Nat) :
    nthCreatedIndex t n = t.new_gate_index + n + 1 := by
  induction n generalizing t with
  | zero => simp [nthCreatedIndex, IndexedFaultTree.CreateGate]
  | succ n ih =>
    simp only [nthCreatedIndex, IndexedFaultTree.CreateGate, ih]
    push_cast
    ring

/-- Sum of squared deviations from an arbitrary center `c`. -/
theorem sum_sq_sub (xs : List ℝ) (c : ℝ) :
    (xs.map fun x => (x - c) ^ 2).sum =
      (xs.map fun x => x ^ 2).sum - 2 * c * xs.sum + xs.length * c ^ 2 := by
  induction xs with
  | nil => simp
  | cons a l ih =>
    simp only [List.map_cons, List.sum_cons, List.length_cons, ih]
    push_cast
    ring

/-- The Boost lazy variance (second raw moment minus squared mean) equals
the mean squared deviation from the sample mean. -/
theorem accVariance_eq_sampleVariance (xs : List ℝ) (h : xs ≠ []) :
    accVariance xs = sampleVariance xs := by
  have h0 : xs.length ≠ 0 := by simpa [List.length_eq_zero] using h
  have hn : (xs.length : ℝ) ≠ 0 := Nat.cast_ne_zero.mpr h0
  unfold accVariance sampleVariance accMean
  rw [sum_sq_sub]
  field_simp
  ring

/-! ## Claim theorems -/

/-- C3 counterexample: it is not true that a `Visit` call returns `true`
only on the third visit of a node.  On the call sequence `[1, 2, 3, 4]`
(positive times, slots starting at zero) the fourth call also returns
`true`. -/
theorem Visit_true_iff_third_refuted :
    ¬ (∀ ts : List Int, (∀ t ∈ ts, 0 < t) →
        ∀ k, k < ts.length → ((runVisits ts).2.getD k false = true ↔ k = 2)) := by
  intro h
  have h4 := (h [1, 2, 3, 4] (by decide) 3 (by decide)).mp (by decide)
  exact absurd h4 (by decide)

/-- C3 (amended): for any sequence of `Visit` calls with positive times on
a node whose slots start at zero, the first call sets the enter time, the
second the exit time, and each call from the third on overwrites the
revisit slot (which ends with the last time); a call returns `true` iff it
is the third or a later visit (the first `min length 2` calls return
`false`, all remaining calls return `true`). -/
theorem Visit_fills_slots_in_order (ts : List Int) (hpos : ∀ t ∈ ts, 0 < t) :
    (runVisits ts).1.EnterTime = ts.headD 0 ∧
    (runVisits ts).1.ExitTime = (ts.drop 1).headD 0 ∧
    (runVisits ts).1.v2 = (ts.drop 2).getLastD 0 ∧
    (runVisits ts).2 =
      List.replicate (min ts.length 2) false ++
        List.replicate (ts.length - 2) true := by
  rcases ts with _ | ⟨t1, _ | ⟨t2, rest⟩⟩
  · simp [runVisits, visitList, initVisits, NodeVisits.EnterTime,
      NodeVisits.ExitTime]
  · simp [runVisits, visitList, initVisits, NodeVisits.Visit,
      NodeVisits.EnterTime, NodeVisits.ExitTime]
  · have h1 : t1 ≠ 0 := by have := hpos t1 (by simp); omega
    have h2 : t2 ≠ 0 := by have := hpos t2 (by simp); omega
    have hsat := visitList_saturated rest ⟨t1, t2, 0⟩ h1 h2
    have e3 : runVisits (t1 :: t2 :: rest) =
        (⟨t1, t2, rest.getLastD 0⟩, false :: false :: rest.map fun _ => true) := by
      simp [runVisits, visitList, NodeVisits.Visit, initVisits, h1, hsat]
    rw [e3]
    refine ⟨rfl, rfl, rfl, ?_⟩
    simp [List.map_const', List.replicate]

/-- C3 witness: the amended claim evaluated on the sequence `[5, 6, 7, 8]`. -/
theorem Visit_fills_slots_in_order_witness :
    (runVisits [5, 6, 7, 8]).1.EnterTime = ([5, 6, 7, 8] : List Int).headD 0 ∧
    (runVisits [5, 6, 7, 8]).1.ExitTime =
      (([5, 6, 7, 8] : List Int).drop 1).headD 0 ∧
    (runVisits [5, 6, 7, 8]).1.v2 =
      (([5, 6, 7, 8] : List Int).drop 2).getLastD 0 ∧
    (runVisits [5, 6, 7, 8]).2 =
      List.replicate (min ([5, 6, 7, 8] : List Int).length 2) false ++
        List.replicate (([5, 6, 7, 8] : List Int).length - 2) true :=
  Visit_fills_slots_in_order [5, 6, 7, 8] (by decide)

/-- C10: `LastVisit` returns the revisit slot when the node was revisited,
falls back to the exit slot when the node was visited at most twice, and is
zero only when no exit time was ever registered. -/
theorem LastVisit_spec (ts : List Int) (hpos : ∀ t ∈ ts, 0 < t) :
    ((runVisits ts).1.Revisited = true →
      (runVisits ts).1.LastVisit = (runVisits ts).1.v2) ∧
    (ts.length ≤ 2 →
      (runVisits ts).1.LastVisit = (runVisits ts).1.ExitTime) ∧
    ((runVisits ts).1.LastVisit = 0 → (runVisits ts).1.ExitTime = 0) := by
  refine ⟨?_, ?_, ?_⟩
  · intro hrev
    have hv : (runVisits ts).1.v2 ≠ 0 := by
      simpa [NodeVisits.Revisited] using hrev
    simp [NodeVisits.LastVisit, hv]
  · intro hlen
    rcases ts with _ | ⟨t1, _ | ⟨t2, _ | ⟨t3, rest⟩⟩⟩
    · simp [runVisits, visitList, initVisits, NodeVisits.LastVisit,
        NodeVisits.ExitTime]
    · simp [runVisits, visitList, initVisits, NodeVisits.Visit,
        NodeVisits.LastVisit, NodeVisits.ExitTime]
    · have h1 : t1 ≠ 0 := by have := hpos t1 (by simp); omega
      simp [runVisits, visitList, initVisits, NodeVisits.Visit, h1,
        NodeVisits.LastVisit, NodeVisits.ExitTime]
    · simp at hlen
  · intro hlv
    by_cases hv2 : (runVisits ts).1.v2 = 0
    · simpa [NodeVisits.LastVisit, NodeVisits.ExitTime, hv2] using hlv
    · simp [NodeVisits.LastVisit, hv2] at hlv

/-- C10 witness: `LastVisit` behavior evaluated on the sequence `[1, 2]`. -/
theorem LastVisit_spec_witness :
    ((runVisits [1, 2]).1.Revisited = true →
      (runVisits [1, 2]).1.LastVisit = (runVisits [1, 2]).1.v2) ∧
    (([1, 2] : List Int).length ≤ 2 →
      (runVisits [1, 2]).1.LastVisit = (runVisits [1, 2]).1.ExitTime) ∧
    ((runVisits [1, 2]).1.LastVisit = 0 → (runVisits [1, 2]).1.ExitTime = 0) :=
  LastVisit_spec [1, 2] (by decide)

/-- C7: for positive indices, `IsGateIndex` holds exactly on indices at
least `kGateIndex_`, and `CreateGate` hands out strictly increasing fresh
indices, so no two created gates share an index. -/
theorem IsGateIndex_CreateGate_spec :
    (∀ (t : IndexedFaultTree) (i : Int), 0 < i →
      (t.IsGateIndex i = true ↔ t.kGateIndex ≤ i)) ∧
    (∀ (t : IndexedFaultTree) (m n : Nat), m < n →
      nthCreatedIndex t m ≠ nthCreatedIndex t n) := by
  constructor
  · intro t i _
    simp [IndexedFaultTree.IsGateIndex]
  · intro t m n hmn
    rw [nthCreatedIndex_eq, nthCreatedIndex_eq]
    omega

/-- C7 witness: the index test and the freshness of created indices
evaluated on a concrete tree state. -/
theorem IsGateIndex_CreateGate_spec_witness :
    ((⟨10, 20⟩ : IndexedFaultTree).IsGateIndex 12 = true ↔ (10 : Int) ≤ 12) ∧
    nthCreatedIndex ⟨10, 20⟩ 0 ≠ nthCreatedIndex ⟨10, 20⟩ 1 :=
  ⟨IsGateIndex_CreateGate_spec.1 ⟨10, 20⟩ 12 (by decide),
   IsGateIndex_CreateGate_spec.2 ⟨10, 20⟩ 0 1 (by decide)⟩

/-- C8: `Nullify` and `MakeUnity` succeed exactly on gates in the NORMAL
state, set the corresponding terminal state with an empty children set, and
neither transition applies legally to a gate in a terminal state — in
particular not to the result of a previous `Nullify` or `MakeUnity`. -/
theorem Nullify_MakeUnity_spec :
    (∀ g : IGate, g.state = State.kNormalState →
      g.Nullify = some ⟨State.kNullState, ∅⟩ ∧
      g.MakeUnity = some ⟨State.kUnityState, ∅⟩) ∧
    (∀ g : IGate, g.state ≠ State.kNormalState →
      g.Nullify = none ∧ g.MakeUnity = none) ∧
    (∀ g h : IGate, g.Nullify = some h ∨ g.MakeUnity = some h →
      h.Nullify = none ∧ h.MakeUnity = none) := by
  refine ⟨?_, ?_, ?_⟩
  · intro g hg
    simp [IGate.Nullify, IGate.MakeUnity, hg]
  · intro g hg
    simp [IGate.Nullify, IGate.MakeUnity, hg]
  · intro g h hgh
    rcases hgh with hn | hu
    · by_cases hg : g.state = State.kNormalState
      · have hh : ({ state := State.kNullState, children := ∅ } : IGate) = h := by
          simpa [IGate.Nullify, hg] using hn
        subst hh
        simp [IGate.Nullify, IGate.MakeUnity]
      · simp [IGate.Nullify, hg] at hn
    · by_cases hg : g.state = State.kNormalState
      · have hh : ({ state := State.kUnityState, children := ∅ } : IGate) = h := by
          simpa [IGate.MakeUnity, hg] using hu
        subst hh
        simp [IGate.Nullify, IGate.MakeUnity]
      · simp [IGate.MakeUnity, hg] at hu

/-- C8 witness: the transitions evaluated on a NORMAL gate and on the NULL
gate it produces. -/
theorem Nullify_MakeUnity_spec_witness :
    ((⟨State.kNormalState, ∅⟩ : IGate).Nullify =
        some ⟨State.kNullState, ∅⟩ ∧
      (⟨State.kNormalState, ∅⟩ : IGate).MakeUnity =
        some ⟨State.kUnityState, ∅⟩) ∧
    ((⟨State.kUnityState, ∅⟩ : IGate).Nullify = none ∧
      (⟨State.kUnityState, ∅⟩ : IGate).MakeUnity = none) ∧
    ((⟨State.kNullState, ∅⟩ : IGate).Nullify = none ∧
      (⟨State.kNullState, ∅⟩ : IGate).MakeUnity = none) :=
  ⟨Nullify_MakeUnity_spec.1 ⟨State.kNormalState, ∅⟩ rfl,
   Nullify_MakeUnity_spec.2.1 ⟨State.kUnityState, ∅⟩ (by decide),
   Nullify_MakeUnity_spec.2.2 ⟨State.kNormalState, ∅⟩ ⟨State.kNullState, ∅⟩
     (Or.inl (by decide))⟩

/-- C9: on the accepted strings, the boolean conversion returns `true`
exactly for `"1"` and `"true"` and `false` exactly for `"0"` and
`"false"`. -/
theorem GetBoolFromString_spec (s : String)
    (hs : s = "1" ∨ s = "true" ∨ s = "0" ∨ s = "false") :
    (GetBoolFromString s = some true ↔ (s = "1" ∨ s = "true")) ∧
    (GetBoolFromString s = some false ↔ (s = "0" ∨ s = "false")) := by
  rcases hs with h | h | h | h <;> subst h <;> decide

/-- C9 witness: the conversion evaluated at the string `"true"`. -/
theorem GetBoolFromString_spec_witness :
    (GetBoolFromString "true" = some true ↔
      (("true" : String) = "1" ∨ ("true" : String) = "true")) ∧
    (GetBoolFromString "true" = some false ↔
      (("true" : String) = "0" ∨ ("true" : String) = "false")) :=
  GetBoolFromString_spec "true" (Or.inr (Or.inl rfl))

/-- C2 counterexample: with the default cut-off 0 and a cut set of product
probability 0, the cut set's probability is not below the cut-off, yet the
filtering loop discards it. -/
theorem cutOff_boundary_discarded :
    cutOffFilter (fun _ => (0 : ℚ)) 0 [[1]] = [] ∧
    ¬ (ProbAnd (fun _ => (0 : ℚ)) [1] < 0) := by
  constructor
  · norm_num [cutOffFilter, ProbAnd]
  · norm_num [ProbAnd]

/-- C2 (amended): a minimal cut set is retained for the series expansion
iff its product probability is strictly greater than `cut_off`; cut sets
whose probability equals the cut-off are discarded together with those
below it. -/
theorem cutOffFilter_mem (p : Int → ℚ) (c : ℚ) (imcs : List (List Int))
    (s : List Int) :
    s ∈ cutOffFilter p c imcs ↔ s ∈ imcs ∧ c < ProbAnd p s := by
  simp [cutOffFilter, List.mem_filter]

/-- C4: the series expansion depth is 1 under the rare-event approximation
and the configured `num_sums` otherwise. -/
theorem effectiveNumSums_spec (approx : String) (ns : Int) :
    effectiveNumSums "rare-event" ns = 1 ∧
    (approx ≠ "rare-event" → effectiveNumSums approx ns = ns) := by
  constructor
  · rfl
  · intro h
    simp [effectiveNumSums, h]

/-- C4 witness: the truncation depth evaluated for the rare-event and the
mcub approximations. -/
theorem effectiveNumSums_spec_witness :
    effectiveNumSums "rare-event" 7 = 1 ∧ effectiveNumSums "mcub" 7 = 7 :=
  ⟨(effectiveNumSums_spec "mcub" 7).1,
   (effectiveNumSums_spec "mcub" 7).2 (by decide)⟩

/-- C1: when the minimal-cut-set family is exactly the singleton holding
the empty set, `Analyze` returns immediately — independently of what the
main analysis path would produce — with mean 1, sigma 0, confidence
interval `(1, 1)`, a single-point distribution, and without sampling any
trials. -/
theorem Analyze_unity_spec (mcs : Finset (Finset String))
    (rest : UncertaintyResult) (h : mcs = {∅}) :
    Analyze mcs rest =
      ({ mean := 1, sigma := 0, confidence_interval := (1, 1),
         distribution := [(1, 1)], quantiles := [1] }, false) := by
  subst h
  simp [Analyze]

/-- C1 witness: the UNITY early return evaluated on the concrete family
containing only the empty cut set. -/
theorem Analyze_unity_spec_witness :
    Analyze {∅} ⟨0, 0, (0, 0), [], []⟩ =
      ({ mean := 1, sigma := 0, confidence_interval := (1, 1),
         distribution := [(1, 1)], quantiles := [1] }, false) :=
  Analyze_unity_spec {∅} ⟨0, 0, (0, 0), [], []⟩ rfl

/-- C5: the confidence interval computed by `CalculateStatistics` is
exactly `mean ± 1.96 × sigma / sqrt(num_trials)` where `mean` is the
sample mean of the trial results and `sigma` the square root of the sample
variance. -/
theorem confidenceInterval_eq_claimed (xs : List ℝ) (n : Nat) (h : xs ≠ []) :
    confidenceInterval xs n = claimedCI xs n := by
  unfold confidenceInterval claimedCI
  rw [accVariance_eq_sampleVariance xs h]
  simp only [Prod.mk.injEq]
  constructor <;> ring

/-- C5 witness: the two interval expressions evaluated on the one-sample
list `[1]`. -/
theorem confidenceInterval_eq_claimed_witness :
    confidenceInterval [1] 1 = claimedCI [1] 1 :=
  confidenceInterval_eq_claimed [1] 1 (by simp)

/-- C6 counterexample: on the histogram the Boost density accumulator
returns for `num_bins = 20` (22 entries, including the underflow and
overflow bins), the reported distribution holds 21 entries, not 20. -/
theorem distribution_length_not_num_bins :
    (buildDistribution
        (List.replicate (densityHistLength 20) ((0 : ℚ), (0 : ℚ)))).length = 21 ∧
    (21 : Nat) ≠ 20 := by
  constructor
  · simp [buildDistribution, densityHistLength]
  · decide

/-- C6 (amended): the reported density distribution holds
`num_bins + 1 = 21` entries for the default 20 bins: the copy loop skips
only the underflow bin at position 0 and keeps the overflow bin. -/
theorem distribution_length (hist : List (ℚ × ℚ))
    (h : hist.length = densityHistLength 20) :
    (buildDistribution hist).length = 21 := by
  simp [buildDistribution, h, densityHistLength]

/-- C6 witness: the distribution length evaluated on a concrete 22-entry
histogram. -/
theorem distribution_length_witness :
    (buildDistribution (List.replicate 22 ((0 : ℚ), (0 : ℚ)))).length = 21 :=
  distribution_length (List.replicate 22 ((0 : ℚ), (0 : ℚ)))
    (by simp [densityHistLength])

end Scram
